import Mathlib

/-!
Shallow embedding of the `traininggym` repository's two applications:

* `server.js` (src/unnamed/part_000): an Express + SQLite portfolio/blog
  server.  SQLite rows become Lean structures, the two tables become lists
  carried in a `Store` together with the AUTOINCREMENT sequence counters,
  and each route handler becomes a pure function
  `session/body/now → Store → Resp × Store`.  `CURRENT_TIMESTAMP` is an
  explicit `now : Nat` parameter.
* `App.jsx` (src/src/App.jsx): the browser CMS; its post list and the
  `upsertPost` / `PostModal` save path are embedded as pure list
  transformations.

JavaScript truthiness on request-body fields is embedded with
`Option String` (`none` = absent/undefined); the JS guard `!x` is the
predicate "none or empty string".
-/

namespace Traininggym

/-- A row of the `messages` table (id INTEGER PRIMARY KEY AUTOINCREMENT,
name, email, message TEXT NOT NULL, created_at DATETIME). -/
structure MessageRow where
  id : Nat
  name : String
  email : String
  message : String
  created_at : Nat
deriving DecidableEq, Repr

/-- A row of the `posts` table (id INTEGER PRIMARY KEY AUTOINCREMENT,
slug TEXT UNIQUE NOT NULL, title TEXT NOT NULL, excerpt TEXT,
content TEXT, created_at DATETIME).  `excerpt` and `content` are nullable
columns, hence `Option String`. -/
structure PostRow where
  id : Nat
  slug : String
  title : String
  excerpt : Option String
  content : Option String
  created_at : Nat
deriving DecidableEq, Repr

/-- The SQLite database: both tables plus the AUTOINCREMENT sequence
counter of each (`sqlite_sequence`); a fresh row always gets id
`seq + 1` and bumps the counter, ids are never reused. -/
structure Store where
  messages : List MessageRow
  posts : List PostRow
  msgSeq : Nat
  postSeq : Nat
deriving DecidableEq, Repr

/-- `req.session` contents relevant to the server: set by POST /admin/login. -/
structure Session where
  isAdmin : Bool
  adminEmail : String
deriving DecidableEq, Repr

/-- The JS truthiness test `!x` on a request-body field: true when the
field is absent (`undefined`) or the empty string. -/
def jsFalsyField : Option String → Bool
  | none => true
  | some s => s = ""

/-- `function requireAdmin(req,res,next)`: `req.session && req.session.isAdmin`. -/
def requireAdmin : Option Session → Bool
  | some s => s.isAdmin
  | none => false

/-! ### escapeHtml -/

/-- A JavaScript value, as far as `escapeHtml` distinguishes its inputs:
`null`, `undefined`, booleans, integral numbers (with `NaN` kept apart,
since the repository never produces non-integral numbers) and strings. -/
inductive JsValue where
  | vNull
  | vUndef
  | vBool (b : Bool)
  | vInt (n : Int)
  | vNaN
  | vStr (s : String)
deriving DecidableEq

/-- JavaScript `String(v)` on the values above. -/
def jsToString : JsValue → String
  | .vNull => "null"
  | .vUndef => "undefined"
  | .vBool true => "true"
  | .vBool false => "false"
  | .vInt n => toString n
  | .vNaN => "NaN"
  | .vStr s => s

/-- JavaScript truthiness `!v` (negated): `null`, `undefined`, `false`,
the number `0`, `NaN` and the empty string are falsy. -/
def jsFalsy : JsValue → Bool
  | .vNull => true
  | .vUndef => true
  | .vBool b => !b
  | .vInt n => n = 0
  | .vNaN => true
  | .vStr s => s = ""

/-- Strict equality `v === 0` with the number zero (`NaN === 0` is false). -/
def jsIsNumZero : JsValue → Bool
  | .vInt n => n = 0
  | _ => false

/-- One global single-character regex replace `.replace(/c/g, t)`: every
occurrence of the character `c` becomes the string `t`. -/
def replaceAllChar (c : Char) (t : String) (s : String) : String :=
  ⟨s.data.flatMap (fun x => if x = c then t.data else [x])⟩

/-- String part of `function escapeHtml(s)`: the five chained global
replaces of the source, ampersand first, applied to `String(s)`. -/
def escapeHtmlStr (s : String) : String :=
  replaceAllChar '\'' "&#039;"
    (replaceAllChar '"' "&quot;"
      (replaceAllChar '>' "&gt;"
        (replaceAllChar '<' "&lt;"
          (replaceAllChar '&' "&amp;" s))))

/-- `function escapeHtml(s)`: `if (!s && s !== 0) return ''` and otherwise
the chained replaces over `String(s)`. -/
def escapeHtml (v : JsValue) : String :=
  if jsFalsy v && !(jsIsNumZero v) then "" else escapeHtmlStr (jsToString v)

/-! ### markdownToHtml

The JS function is a chain of regex replaces.  They are embedded on
`List Char`.  Two source facts drive the embedding: `.` in a JS regex
does not match a newline, and in a regex literal `\\n` matches the
two-character sequence backslash-`n`, not a newline. -/

/-- Does `pat` occur at the head of `l`? -/
def leadsWith : List Char → List Char → Bool
  | [], _ => true
  | _ :: _, [] => false
  | p :: ps, c :: cs => p = c && leadsWith ps cs

/-- Split on `'\n'` characters (JS multiline `^`/`$` line structure). -/
def splitLines : List Char → List (List Char)
  | [] => [[]]
  | '\n' :: rest => [] :: splitLines rest
  | c :: rest =>
    match splitLines rest with
    | [] => [[c]]
    | l :: ls => (c :: l) :: ls

/-- Rejoin lines with `'\n'`. -/
def joinLines : List (List Char) → List Char
  | [] => []
  | [l] => l
  | l :: ls => l ++ '\n' :: joinLines ls

/-- One line of a multiline replace `^#..# (.*$)` → `<hN>$1</hN>`: if the
line opens with the hash marks and a space, wrap the rest of the line. -/
def headingRepl (marks : List Char) (openTag closeTag : List Char)
    (line : List Char) : List Char :=
  if leadsWith (marks ++ [' ']) line then
    openTag ++ line.drop (marks.length + 1) ++ closeTag
  else line

/-- The three heading replaces in source order (`###`, then `##`, then `#`);
none of them introduces a newline or a fresh leading hash, so the three
successive global replaces act independently on each line. -/
def headingLine (line : List Char) : List Char :=
  headingRepl ['#'] "<h1>".data "</h1>".data
    (headingRepl ['#', '#'] "<h2>".data "</h2>".data
      (headingRepl ['#', '#', '#'] "<h3>".data "</h3>".data line))

/-- All three heading passes over the whole text. -/
def headingPasses (l : List Char) : List Char :=
  joinLines ((splitLines l).map headingLine)

/-- Lazy search for the earliest occurrence of delimiter `d`: returns the
characters before it and the characters after it, failing on a newline
(the `.*?` between delimiters cannot cross a line). -/
def findDelim (d : List Char) : List Char → Option (List Char × List Char)
  | [] => none
  | c :: cs =>
    if leadsWith d (c :: cs) then some ([], (c :: cs).drop d.length)
    else if c = '\n' then none
    else
      match findDelim d cs with
      | some (mid, rest) => some (c :: mid, rest)
      | none => none

/-- Global replace of `open (.*?) close` by `tagOpen $1 tagClose`
(the `**`/`<strong>` and `*`/`<em>` passes).  Leftmost match, shortest
middle, scanning resumes after each match; fuel bounds the recursion and
`length + 1` always suffices since every step consumes a character. -/
def replaceDelim (dOpen dClose tagOpen tagClose : List Char) :
    Nat → List Char → List Char
  | 0, l => l
  | _ + 1, [] => []
  | fuel + 1, c :: cs =>
    if leadsWith dOpen (c :: cs) then
      match findDelim dClose ((c :: cs).drop dOpen.length) with
      | some (mid, rest) =>
        tagOpen ++ mid ++ tagClose ++ replaceDelim dOpen dClose tagOpen tagClose fuel rest
      | none => c :: replaceDelim dOpen dClose tagOpen tagClose fuel cs
    else c :: replaceDelim dOpen dClose tagOpen tagClose fuel cs

/-- Global replace of the link pattern: text up to the earliest occurrence
of the two-character close-bracket-open-paren, then url up to the earliest
close paren, becomes the anchor markup of the source. -/
def linkRepl : Nat → List Char → List Char
  | 0, l => l
  | _ + 1, [] => []
  | fuel + 1, c :: cs =>
    if c = '[' then
      match findDelim [']', '('] cs with
      | some (text, rest1) =>
        match findDelim [')'] rest1 with
        | some (url, rest2) =>
          "<a href=\"".data ++ url ++ "\" target=\"_blank\">".data ++ text
            ++ "</a>".data ++ linkRepl fuel rest2
        | none => c :: linkRepl fuel cs
      | none => c :: linkRepl fuel cs
    else c :: linkRepl fuel cs

/-- Greedily consume the `n+` tail of the paragraph-break pattern. -/
def dropNs : List Char → List Char
  | 'n' :: cs => dropNs cs
  | cs => cs

/-- Match of the split pattern at the head of the list.  In the regex
literal of the source each doubled backslash is a LITERAL backslash
character, so the pattern matches backslash, `n`, backslash, then one or
more `n` — not newline characters. -/
def matchParaBreak : List Char → Option (List Char)
  | '\\' :: 'n' :: '\\' :: 'n' :: rest => some (dropNs rest)
  | _ => none

/-- `out.split(...)` on the paragraph-break pattern, empty pieces kept, as
JS `String.prototype.split` does. -/
def splitParas : Nat → List Char → List (List Char)
  | 0, l => [l]
  | _ + 1, [] => [[]]
  | fuel + 1, c :: cs =>
    match matchParaBreak (c :: cs) with
    | some rest => [] :: splitParas fuel rest
    | none =>
      match splitParas fuel cs with
      | [] => [[c]]
      | p :: ps => (c :: p) :: ps

/-- The inner replace of each paragraph piece: every literal
backslash-`n` pair becomes a line-break tag. -/
def brReplace : List Char → List Char
  | '\\' :: 'n' :: cs => "<br/>".data ++ brReplace cs
  | c :: cs => c :: brReplace cs
  | [] => []

/-- `function markdownToHtml(md)`: empty string short-circuit, heading
passes, bold, italic, link, then the paragraph split and wrap. -/
def markdownToHtml (md : String) : String :=
  if md = "" then ""
  else
    let l0 := headingPasses md.data
    let l1 := replaceDelim ['*', '*'] ['*', '*'] "<strong>".data "</strong>".data
      (l0.length + 1) l0
    let l2 := replaceDelim ['*'] ['*'] "<em>".data "</em>".data (l1.length + 1) l1
    let l3 := linkRepl (l2.length + 1) l2
    let paras := splitParas (l3.length + 1) l3
    ⟨(paras.map (fun p => "<p>".data ++ brReplace p ++ "</p>".data)).flatten⟩

/-! ### SQL operations

`ORDER BY created_at DESC` is embedded as a merge sort under the
comparator "later or equal timestamp first"; `INSERT` under
AUTOINCREMENT hands out `seq + 1` and bumps the sequence;
`INSERT OR REPLACE` deletes every row that would violate the UNIQUE
constraint and then performs a fresh insert. -/

/-- `SELECT id, slug, title, excerpt, created_at FROM posts ORDER BY
created_at DESC` (rows carried whole; the route only reads the selected
columns). -/
def listPostsDesc (st : Store) : List PostRow :=
  st.posts.mergeSort (fun a b => decide (b.created_at ≤ a.created_at))

/-- `SELECT id, name, email, message, created_at FROM messages ORDER BY
created_at DESC`. -/
def listMessagesDesc (st : Store) : List MessageRow :=
  st.messages.mergeSort (fun a b => decide (b.created_at ≤ a.created_at))

/-! ### Responses and request bodies -/

/-- The response actions the embedded routes take. -/
inductive Resp where
  | redirect (loc : String)
  | page (status : Nat) (body : String)
  | jsonOk (id : Nat)
  | jsonErr (status : Nat) (error : String)
  | noContent (status : Nat)
deriving DecidableEq

/-- Is the response `res.redirect(...)`? -/
def isRedirect : Resp → Bool
  | .redirect _ => true
  | _ => false

/-- Body of `POST /api/contact` (`req.body` fields; `none` = absent). -/
structure ContactBody where
  name : Option String
  email : Option String
  message : Option String
deriving DecidableEq

/-- Body of `POST /admin/posts`. -/
structure PostForm where
  slug : Option String
  title : Option String
  excerpt : Option String
  content : Option String
deriving DecidableEq

/-! ### Route handlers -/

/-- `app.post('/api/contact')`: reject with a 400 JSON error when any of
the three fields is falsy, otherwise insert one row (fresh AUTOINCREMENT
id, `created_at` defaulted to now) and answer `{success, id: lastID}`. -/
def apiContact (body : ContactBody) (now : Nat) (st : Store) : Resp × Store :=
  if jsFalsyField body.name || jsFalsyField body.email || jsFalsyField body.message then
    (.jsonErr 400 "name, email and message required", st)
  else
    let row : MessageRow :=
      { id := st.msgSeq + 1
        name := body.name.getD ""
        email := body.email.getD ""
        message := body.message.getD ""
        created_at := now }
    (.jsonOk (st.msgSeq + 1),
      { st with messages := st.messages ++ [row], msgSeq := st.msgSeq + 1 })

/-- `app.post('/admin/posts')` behind `requireAdmin`: falsy slug, title or
content redirects with `msg=missing`; otherwise `INSERT OR REPLACE`: the
row conflicting on the UNIQUE slug (if any) is deleted and a fresh row is
inserted with the next AUTOINCREMENT id and the current timestamp. -/
def postAdminPosts (sess : Option Session) (body : PostForm) (now : Nat)
    (st : Store) : Resp × Store :=
  if requireAdmin sess then
    if jsFalsyField body.slug || jsFalsyField body.title || jsFalsyField body.content then
      (.redirect "/admin?msg=missing", st)
    else
      let slug := body.slug.getD ""
      let row : PostRow :=
        { id := st.postSeq + 1
          slug := slug
          title := body.title.getD ""
          excerpt := body.excerpt
          content := body.content
          created_at := now }
      (.redirect "/admin?msg=ok",
        { st with posts := st.posts.filter (fun p => p.slug ≠ slug) ++ [row]
                  postSeq := st.postSeq + 1 })
  else (.redirect "/admin/login", st)

/-- `app.post('/admin/posts/delete')` behind `requireAdmin`:
`DELETE FROM posts WHERE slug = ?`, then a redirect either way. -/
def postAdminPostsDelete (sess : Option Session) (slug : Option String)
    (st : Store) : Resp × Store :=
  if requireAdmin sess then
    if jsFalsyField slug then (.redirect "/admin?msg=missing", st)
    else
      (.redirect "/admin?msg=deleted",
        { st with posts := st.posts.filter (fun p => p.slug ≠ slug.getD "") })
  else (.redirect "/admin/login", st)

/-- `app.post('/admin/messages/delete')` behind `requireAdmin`.  The form
field is the decimal rendering of a message id; SQLite INTEGER affinity
compares it numerically, so it is embedded as the parsed number, `none`
for an absent or empty field (the only falsy form values the dashboard
can produce). -/
def postAdminMessagesDelete (sess : Option Session) (mid : Option Nat)
    (st : Store) : Resp × Store :=
  if requireAdmin sess then
    match mid with
    | none => (.redirect "/admin?msg=missing", st)
    | some n =>
      (.redirect "/admin?msg=deleted",
        { st with messages := st.messages.filter (fun m => m.id ≠ n) })
  else (.redirect "/admin/login", st)

/-! ### Renderers

Every interpolation of dynamic data and its escaping is kept exactly as
in the source templates; the surrounding static chrome (CSS, header,
footer, inline client script, decorative attributes) is abbreviated, as
no dynamic data flows into it. -/

/-- One of the UTF-8 bytes of a character, as a number. -/
def utf8Bytes (c : Char) : List Nat :=
  let n := c.toNat
  if n < 0x80 then [n]
  else if n < 0x800 then [0xC0 + n / 64, 0x80 + n % 64]
  else if n < 0x10000 then [0xE0 + n / 4096, 0x80 + (n / 64) % 64, 0x80 + n % 64]
  else [0xF0 + n / 262144, 0x80 + (n / 4096) % 64, 0x80 + (n / 64) % 64, 0x80 + n % 64]

/-- An uppercase hexadecimal digit. -/
def hexDigit (n : Nat) : Char :=
  if n < 10 then Char.ofNat ('0'.toNat + n) else Char.ofNat ('A'.toNat + (n - 10))

/-- Percent-encoding of one byte. -/
def percentByte (b : Nat) : List Char :=
  ['%', hexDigit (b / 16), hexDigit (b % 16)]

/-- The characters `encodeURIComponent` leaves intact. -/
def uriUnreserved (c : Char) : Bool :=
  ('A' ≤ c && c ≤ 'Z') || ('a' ≤ c && c ≤ 'z') || ('0' ≤ c && c ≤ '9') ||
  c = '-' || c = '_' || c = '.' || c = '!' || c = '~' || c = '*' || c = '\'' ||
  c = '(' || c = ')'

/-- JS `encodeURIComponent`: unreserved characters kept, every other
character percent-encoded byte by byte. -/
def encodeURIComponent (s : String) : String :=
  ⟨s.data.flatMap (fun c =>
    if uriUnreserved c then [c] else (utf8Bytes c).flatMap percentByte)⟩

/-- An entry of the in-memory `projects` array. -/
structure Project where
  id : Nat
  title : String
  description : String
  tech : List String
deriving DecidableEq

/-- The hard-coded `projects` array of the server. -/
def projects : List Project :=
  [ { id := 1, title := "Portfolio Website"
      description := "Responsive portfolio with contact form and blog"
      tech := ["HTML", "CSS", "Node"] },
    { id := 2, title := "API Backend"
      description := "Express + SQLite backend for small apps"
      tech := ["Node", "Express", "SQLite"] } ]

/-- `renderPage(title, bodyHtml)`: the document shell around the escaped
title and the body fragment. -/
def renderPage (title body : String) : String :=
  "<!doctype html><html lang=\"en\"><head><title>" ++ escapeHtmlStr title
    ++ " — Yusuf</title></head><body><header/><main class=\"container\">"
    ++ body ++ "</main><footer/></body></html>"

/-- One project card of `renderHome`. -/
def renderProjectCard (p : Project) : String :=
  "<div class=\"card\"><h3>" ++ escapeHtmlStr p.title ++ "</h3><p class=\"muted\">"
    ++ escapeHtmlStr p.description ++ "</p><small class=\"small\">Tech: "
    ++ escapeHtmlStr (String.intercalate ", " p.tech) ++ "</small></div>"

/-- One blog card of `renderHome`: slug URI-encoded in the link target,
title and excerpt HTML-escaped, null excerpt defaulted to the empty
string. -/
def renderHomeBlogCard (p : PostRow) : String :=
  "<div class=\"card\"><h3><a href=\"/post/" ++ encodeURIComponent p.slug
    ++ "\">" ++ escapeHtmlStr p.title ++ "</a></h3><p class=\"muted\">"
    ++ escapeHtmlStr (p.excerpt.getD "") ++ "</p></div>"

/-- `renderHome(projects, posts, session)`. -/
def renderHome (projs : List Project) (posts : List PostRow)
    (sess : Option Session) : String :=
  "<section class=\"hero\"><h1>Hello</h1></section><section id=\"projects\"><h2>Selected Projects</h2><div class=\"grid\">"
    ++ String.join (projs.map renderProjectCard)
    ++ "</div></section><section id=\"blog\"><h2>Blog</h2><div>"
    ++ (if posts.isEmpty then "<p class=\"muted\">No posts yet.</p>"
        else String.join (posts.map renderHomeBlogCard))
    ++ "</div></section><section id=\"contact\"><h2>Contact</h2><form/></section>"
    ++ (match sess with
        | some s => if s.isAdmin then "<p><a href=\"/admin\">Go to admin</a></p>" else ""
        | none => "")

/-- One message card of `renderAdminDashboard`; the numeric id is
interpolated raw into the hidden field, everything else escaped. -/
def renderMessageCard (m : MessageRow) : String :=
  "<div class=\"card\"><div class=\"small\">" ++ escapeHtmlStr m.email ++ " — "
    ++ escapeHtmlStr (toString m.created_at) ++ "</div><div>"
    ++ escapeHtmlStr m.message
    ++ "</div><form method=\"POST\" action=\"/admin/messages/delete\">"
    ++ "<input type=\"hidden\" name=\"id\" value=\"" ++ toString m.id
    ++ "\" /><button class=\"btn\" type=\"submit\">Delete message</button></form></div>"

/-- One existing-post item of `renderAdminDashboard`. -/
def renderPostItem (p : PostRow) : String :=
  "<li><strong>" ++ escapeHtmlStr p.title ++ "</strong> — <span class=\"small\">"
    ++ escapeHtmlStr p.slug
    ++ "</span><form method=\"POST\" action=\"/admin/posts/delete\">"
    ++ "<input type=\"hidden\" name=\"slug\" value=\"" ++ escapeHtmlStr p.slug
    ++ "\" /><button class=\"btn\" type=\"submit\">Delete</button></form></li>"

/-- `renderAdminDashboard(messages, posts)`. -/
def renderAdminDashboard (messages : List MessageRow) (posts : List PostRow) : String :=
  "<h2>Admin Dashboard</h2><a href=\"/admin/logout\">Logout</a><section><h3>Messages</h3>"
    ++ (if messages.isEmpty then "<p class=\"muted\">No messages yet.</p>"
        else String.join (messages.map renderMessageCard))
    ++ "</section><section><h3>Manage Posts</h3><div class=\"card\"><form/></div><h4>Existing posts</h4>"
    ++ (if posts.isEmpty then "<p class=\"muted\">No posts.</p>"
        else "<ul>" ++ String.join (posts.map renderPostItem) ++ "</ul>")
    ++ "</section>"

/-- `app.get('/')`: render home over the newest-first post list. -/
def getHome (sess : Option Session) (st : Store) : Resp × Store :=
  (.page 200 (renderPage "Home" (renderHome projects (listPostsDesc st) sess)), st)

/-- `app.get('/post/:slug')`: 404 page when no row matches, otherwise the
article with escaped title and excerpt and the escaped content run
through the markdown converter. -/
def getPostBySlug (slug : String) (st : Store) : Resp × Store :=
  match st.posts.find? (fun p => p.slug = slug) with
  | none =>
    (.page 404 (renderPage "Not found"
      "<h2>Post not found</h2><p><a href=\"/\">Back</a></p>"), st)
  | some row =>
    (.page 200 (renderPage row.title
      ("<article class=\"prose max-w-none\"><h1>" ++ escapeHtmlStr row.title
        ++ "</h1><p class=\"text-gray-600\">" ++ escapeHtmlStr (row.excerpt.getD "")
        ++ "</p><div>" ++ markdownToHtml (escapeHtmlStr (row.content.getD ""))
        ++ "</div><p><a href=\"/\">Back</a></p></article>")), st)

/-- `app.get('/admin', requireAdmin, ...)`: the dashboard over both
newest-first lists, or the login redirect. -/
def getAdmin (sess : Option Session) (st : Store) : Resp × Store :=
  if requireAdmin sess then
    (.page 200 (renderPage "Admin Dashboard"
      (renderAdminDashboard (listMessagesDesc st) (listPostsDesc st))), st)
  else (.redirect "/admin/login", st)

/-! ### Browser app (App.jsx) -/

/-- A browser-side blog post; `id` is `none` while the post has never
been saved (`post?.id` of a fresh modal is `undefined`). -/
structure BrowserPost where
  id : Option String
  title : String
  content : String
  createdAt : String
deriving DecidableEq

/-- `upsertPost(post)` of App.jsx: a falsy id gets `Date.now().toString()`
and the post is prepended; otherwise the list is mapped, swapping in the
post wherever the id matches. -/
def upsertPost (now : Nat) (post : BrowserPost) (prev : List BrowserPost) :
    List BrowserPost :=
  if jsFalsyField post.id then
    { post with id := some (toString now) } :: prev
  else
    prev.map (fun p => if p.id = post.id then post else p)

/-- The PostModal save button followed by `upsertPost`: the saved object
is the form fields with `id: post?.id` and
`createdAt: post?.createdAt ?? new Date().toISOString()` (existing posts
always carry a `createdAt`, so editing keeps the original one). -/
def postModalSave (editing : Option BrowserPost) (formTitle formContent : String)
    (now : Nat) (nowIso : String) (prev : List BrowserPost) : List BrowserPost :=
  let saved : BrowserPost :=
    { id := editing.bind (fun p => p.id)
      title := formTitle
      content := formContent
      createdAt :=
        match editing with
        | some p => p.createdAt
        | none => nowIso }
  upsertPost now saved prev

/-! ### Character-level view of escapeHtml (used to state claim C5) -/

/-- The action of one global single-character replace on one character. -/
def escStep (c : Char) (t : String) : Char → List Char :=
  fun x => if x = c then t.data else [x]

/-- The per-character action of the whole five-replace chain: each of the
five special characters becomes its entity, everything else is kept. -/
def escCharData (c : Char) : List Char :=
  if c = '&' then "&amp;".data
  else if c = '<' then "&lt;".data
  else if c = '>' then "&gt;".data
  else if c = '"' then "&quot;".data
  else if c = '\'' then "&#039;".data
  else [c]

/-- No raw angle bracket or quote character occurs in the list. -/
def rawDangerFree (l : List Char) : Bool :=
  l.all fun c => !(c = '<' || c = '>' || c = '"' || c = '\'')

/-- The list opens with the tail of one of the five entities. -/
def entityTailOk (l : List Char) : Bool :=
  leadsWith "amp;".data l || leadsWith "lt;".data l || leadsWith "gt;".data l ||
  leadsWith "quot;".data l || leadsWith "#039;".data l

/-- Every ampersand in the list starts one of the five entities. -/
def ampEscaped : List Char → Bool
  | [] => true
  | c :: cs => (if c = '&' then entityTailOk cs else true) && ampEscaped cs

/-! ## Theorems -/

/-- Helper: the five chained replaces act on the character list as one
per-character substitution. -/
theorem escChain_eq (l : List Char) :
    ((((l.flatMap (escStep '&' "&amp;")).flatMap (escStep '<' "&lt;")).flatMap
      (escStep '>' "&gt;")).flatMap (escStep '"' "&quot;")).flatMap
      (escStep '\'' "&#039;")
    = l.flatMap escCharData := by
  induction l with
  | nil => rfl
  | cons ch l ih =>
    rw [List.flatMap_cons, List.flatMap_append, List.flatMap_append,
      List.flatMap_append, List.flatMap_append, List.flatMap_cons, ih]
    congr 1
    by_cases h1 : ch = '&'
    · subst h1; rfl
    by_cases h2 : ch = '<'
    · subst h2; rfl
    by_cases h3 : ch = '>'
    · subst h3; rfl
    by_cases h4 : ch = '"'
    · subst h4; rfl
    by_cases h5 : ch = '\''
    · subst h5; rfl
    simp [escStep, escCharData, h1, h2, h3, h4, h5]

/-- Helper: `escapeHtmlStr` is the per-character substitution `escCharData`. -/
theorem escapeHtmlStr_eq (s : String) :
    escapeHtmlStr s = ⟨s.data.flatMap escCharData⟩ :=
  congrArg String.mk (escChain_eq s.data)

/-- Helper: no block of the substitution contains a raw dangerous character. -/
theorem rawDangerFree_block (ch : Char) : rawDangerFree (escCharData ch) = true := by
  by_cases h1 : ch = '&'
  · subst h1; rfl
  by_cases h2 : ch = '<'
  · subst h2; rfl
  by_cases h3 : ch = '>'
  · subst h3; rfl
  by_cases h4 : ch = '"'
  · subst h4; rfl
  by_cases h5 : ch = '\''
  · subst h5; rfl
  simp [rawDangerFree, escCharData, h1, h2, h3, h4, h5]

/-- Helper: `rawDangerFree` distributes over append. -/
theorem rawDangerFree_append (a b : List Char) :
    rawDangerFree (a ++ b) = (rawDangerFree a && rawDangerFree b) :=
  List.all_append

/-- Helper: the substituted list has no raw dangerous character. -/
theorem rawDangerFree_flatMap (l : List Char) :
    rawDangerFree (l.flatMap escCharData) = true := by
  induction l with
  | nil => rfl
  | cons ch l ih =>
    rw [List.flatMap_cons, rawDangerFree_append, rawDangerFree_block, ih]
    rfl

/-- Helper: prepending one substitution block keeps every ampersand an
entity head. -/
theorem ampEscaped_block (ch : Char) (l : List Char) (hl : ampEscaped l = true) :
    ampEscaped (escCharData ch ++ l) = true := by
  by_cases h1 : ch = '&'
  · subst h1; simp [escCharData, ampEscaped, entityTailOk, leadsWith, hl]
  by_cases h2 : ch = '<'
  · subst h2; simp [escCharData, ampEscaped, entityTailOk, leadsWith, hl]
  by_cases h3 : ch = '>'
  · subst h3; simp [escCharData, ampEscaped, entityTailOk, leadsWith, hl]
  by_cases h4 : ch = '"'
  · subst h4; simp [escCharData, ampEscaped, entityTailOk, leadsWith, hl]
  by_cases h5 : ch = '\''
  · subst h5; simp [escCharData, ampEscaped, entityTailOk, leadsWith, hl]
  simp [escCharData, ampEscaped, h1, h2, h3, h4, h5, hl]

/-- Helper: every ampersand of the substituted list starts an entity. -/
theorem ampEscaped_flatMap (l : List Char) :
    ampEscaped (l.flatMap escCharData) = true := by
  induction l with
  | nil => rfl
  | cons ch l ih =>
    rw [List.flatMap_cons]
    exact ampEscaped_block ch _ ih

/-- Claim C1, counterexample: with one stored post (id 1, slug "a") and an
authenticated admin upsert of the same slug, the row keyed by "a" after
the upsert has id 2, not the previous id 1 — `INSERT OR REPLACE` deletes
the conflicting row and AUTOINCREMENT assigns a fresh id, so the id is
NOT preserved. -/
theorem upsert_id_not_preserved_cex :
    (∃ p ∈ ({ messages := [], posts := [⟨1, "a", "t", some "e", some "c", 0⟩],
              msgSeq := 0, postSeq := 1 } : Store).posts, p.slug = "a" ∧ p.id = 1) ∧
    (∀ p ∈ (postAdminPosts (some ⟨true, "admin@example.com"⟩)
        ⟨some "a", some "t2", some "e2", some "c2"⟩ 5
        { messages := [], posts := [⟨1, "a", "t", some "e", some "c", 0⟩],
          msgSeq := 0, postSeq := 1 }).2.posts,
      p.slug = "a" → p.id = 2 ∧ ¬ p.id = 1) := by
  decide

/-- Claim C1 (amended): an authenticated admin upsert of an existing slug
replaces that post's title, excerpt and content — exactly one row with
the slug remains and it carries the new fields — but the row's id is NOT
preserved: the old row is deleted and the new row receives the next
AUTOINCREMENT id, distinct from every id already in the table (and its
`created_at` is reset to the present time). -/
theorem upsert_replaces_fields_fresh_id (sess : Option Session)
    (s t c : String) (e : Option String) (now : Nat) (st : Store) (old : PostRow)
    (hadmin : requireAdmin sess = true)
    (hs : s ≠ "") (ht : t ≠ "") (hc : c ≠ "")
    (hold : old ∈ st.posts) (holdslug : old.slug = s)
    (hseq : ∀ p ∈ st.posts, p.id ≤ st.postSeq) :
    (postAdminPosts sess ⟨some s, some t, e, some c⟩ now st).1 =
      .redirect "/admin?msg=ok" ∧
    (postAdminPosts sess ⟨some s, some t, e, some c⟩ now st).2.posts =
      st.posts.filter (fun p => p.slug ≠ s) ++ [⟨st.postSeq + 1, s, t, e, some c, now⟩] ∧
    (∀ p ∈ (postAdminPosts sess ⟨some s, some t, e, some c⟩ now st).2.posts,
      p.slug = s → p.title = t ∧ p.excerpt = e ∧ p.content = some c ∧
        p.id = st.postSeq + 1 ∧ p.id ≠ old.id) ∧
    (∃ p ∈ (postAdminPosts sess ⟨some s, some t, e, some c⟩ now st).2.posts,
      p.slug = s) := by
  have hres : (postAdminPosts sess ⟨some s, some t, e, some c⟩ now st) =
      (.redirect "/admin?msg=ok",
        { st with
            posts := st.posts.filter (fun p => p.slug ≠ s) ++
              [⟨st.postSeq + 1, s, t, e, some c, now⟩],
            postSeq := st.postSeq + 1 }) := by
    simp [postAdminPosts, hadmin, jsFalsyField, hs, ht, hc]
  refine ⟨by rw [hres], by rw [hres], ?_, ?_⟩
  · intro p hp hpslug
    rw [hres] at hp
    simp only [List.mem_append, List.mem_filter, List.mem_singleton] at hp
    rcases hp with ⟨_, hfilt⟩ | rfl
    · exact absurd hpslug (by simpa using hfilt)
    · have hlt : old.id ≤ st.postSeq := hseq old hold
      refine ⟨rfl, rfl, rfl, rfl, ?_⟩
      show st.postSeq + 1 ≠ old.id
      omega
  · refine ⟨⟨st.postSeq + 1, s, t, e, some c, now⟩, ?_, rfl⟩
    rw [hres]
    simp

/-- Claim C1, witness: the amended theorem applied to the concrete store
of the counterexample. -/
theorem upsert_replaces_fields_fresh_id_witness :
    (postAdminPosts (some ⟨true, "admin@example.com"⟩)
      ⟨some "a", some "t2", some "e2", some "c2"⟩ 5
      ⟨[], [⟨1, "a", "t", some "e", some "c", 0⟩], 0, 1⟩).1 =
      .redirect "/admin?msg=ok" :=
  (upsert_replaces_fields_fresh_id (some ⟨true, "admin@example.com"⟩)
    "a" "t2" "c2" (some "e2") 5
    ⟨[], [⟨1, "a", "t", some "e", some "c", 0⟩], 0, 1⟩
    ⟨1, "a", "t", some "e", some "c", 0⟩
    rfl (by decide) (by decide) (by decide) (by decide) rfl (by decide)).1

/-- Claim C2: when the session is absent or not an admin session,
GET /admin and each mutating admin route return a plain redirect to
/admin/login (a value, never a thrown fault) and the store — both
tables — is returned unchanged; hence only an authenticated admin
session can mutate posts or delete messages. -/
theorem admin_routes_guard_redirects (sess : Option Session) (pb : PostForm)
    (slug : Option String) (mid : Option Nat) (now : Nat) (st : Store)
    (h : requireAdmin sess = false) :
    getAdmin sess st = (.redirect "/admin/login", st) ∧
    postAdminPosts sess pb now st = (.redirect "/admin/login", st) ∧
    postAdminPostsDelete sess slug st = (.redirect "/admin/login", st) ∧
    postAdminMessagesDelete sess mid st = (.redirect "/admin/login", st) := by
  refine ⟨?_, ?_, ?_, ?_⟩ <;>
    simp [getAdmin, postAdminPosts, postAdminPostsDelete, postAdminMessagesDelete, h]

/-- Claim C2, witness: the guard theorem at a sessionless request. -/
theorem admin_routes_guard_redirects_witness :
    getAdmin none ⟨[], [], 0, 0⟩ = (.redirect "/admin/login", ⟨[], [], 0, 0⟩) :=
  (admin_routes_guard_redirects none ⟨none, none, none, none⟩ none none 0
    ⟨[], [], 0, 0⟩ rfl).1

/-- Claim C3: a contact submission with all three fields present and
non-empty inserts exactly one new row (fresh AUTOINCREMENT id, posts
untouched) and answers the success JSON carrying that generated id. -/
theorem contact_inserts_one_row (n e m : String)
    (hn : n ≠ "") (he : e ≠ "") (hm : m ≠ "") (now : Nat) (st : Store) :
    apiContact ⟨some n, some e, some m⟩ now st =
      (.jsonOk (st.msgSeq + 1),
       { st with messages := st.messages ++ [⟨st.msgSeq + 1, n, e, m, now⟩]
                 msgSeq := st.msgSeq + 1 }) ∧
    ((apiContact ⟨some n, some e, some m⟩ now st).2.messages).length =
      st.messages.length + 1 ∧
    (apiContact ⟨some n, some e, some m⟩ now st).2.posts = st.posts := by
  have hres : apiContact ⟨some n, some e, some m⟩ now st =
      (.jsonOk (st.msgSeq + 1),
       { st with messages := st.messages ++ [⟨st.msgSeq + 1, n, e, m, now⟩]
                 msgSeq := st.msgSeq + 1 }) := by
    simp [apiContact, jsFalsyField, hn, he, hm]
  refine ⟨hres, ?_, by rw [hres]⟩
  rw [hres]
  simp

/-- Claim C3, witness: a concrete submission into the empty store. -/
theorem contact_inserts_one_row_witness :
    apiContact ⟨some "nn", some "ee", some "mm"⟩ 7 ⟨[], [], 0, 0⟩ =
      (.jsonOk 1, ⟨[⟨1, "nn", "ee", "mm", 7⟩], [], 1, 0⟩) :=
  (contact_inserts_one_row "nn" "ee" "mm" (by decide) (by decide) (by decide) 7
    ⟨[], [], 0, 0⟩).1

/-- Claim C4: a contact submission with any of the three fields missing
gets the 400 JSON error and the store is unchanged. -/
theorem contact_missing_field_400 (b : ContactBody) (now : Nat) (st : Store)
    (h : b.name = none ∨ b.email = none ∨ b.message = none) :
    apiContact b now st = (.jsonErr 400 "name, email and message required", st) := by
  rcases h with h | h | h <;> simp [apiContact, jsFalsyField, h]

/-- Claim C4, witness: a submission with the name absent. -/
theorem contact_missing_field_400_witness :
    apiContact ⟨none, some "ee", some "mm"⟩ 3 ⟨[], [], 0, 0⟩ =
      (.jsonErr 400 "name, email and message required", ⟨[], [], 0, 0⟩) :=
  contact_missing_field_400 ⟨none, some "ee", some "mm"⟩ 3 ⟨[], [], 0, 0⟩
    (Or.inl rfl)

/-- Claim C5: the string path of `escapeHtml` is exactly the
per-character substitution of the five dangerous characters by their
entities; consequently its output never contains a raw angle bracket or
quote character, every ampersand in it starts an entity, and each of the
five characters alone maps to its entity — so interpolating escaped user
input cannot inject markup. -/
theorem escapeHtml_escapes_dangerous_chars (s : String) :
    escapeHtmlStr s = ⟨s.data.flatMap escCharData⟩ ∧
    rawDangerFree (escapeHtmlStr s).data = true ∧
    ampEscaped (escapeHtmlStr s).data = true ∧
    escapeHtmlStr "&" = "&amp;" ∧ escapeHtmlStr "<" = "&lt;" ∧
    escapeHtmlStr ">" = "&gt;" ∧ escapeHtmlStr "\"" = "&quot;" ∧
    escapeHtmlStr (String.singleton '\'') = "&#039;" := by
  refine ⟨escapeHtmlStr_eq s, ?_, ?_, rfl, rfl, rfl, rfl, rfl⟩
  · rw [escapeHtmlStr_eq s]
    exact rawDangerFree_flatMap s.data
  · rw [escapeHtmlStr_eq s]
    exact ampEscaped_flatMap s.data

/-- Claim C6: the bug exhibited.  On real newline characters the
paragraph split does nothing — `"a\n\nb"` stays one paragraph with its
newlines untouched and a single real newline is not turned into a
line-break tag — while the two-character sequences backslash-`n` get the
treatment the function's own comment promises for line breaks: the split
pattern of the source matches literal backslashes, not newlines.
Headings, bold, italic and links do work as described. -/
theorem markdown_paragraph_literal_backslash_bug :
    markdownToHtml "a\n\nb" = "<p>a\n\nb</p>" ∧
    markdownToHtml "a\n\nb" ≠ "<p>a</p><p>b</p>" ∧
    markdownToHtml "x\ny" = "<p>x\ny</p>" ∧
    markdownToHtml "x\ny" ≠ "<p>x<br/>y</p>" ∧
    markdownToHtml "a\\n\\nb" = "<p>a</p><p>b</p>" ∧
    markdownToHtml "x\\ny" = "<p>x<br/>y</p>" ∧
    markdownToHtml "# Title\n**b** *i* [t](u)" =
      "<p><h1>Title</h1>\n<strong>b</strong> <em>i</em> <a href=\"u\" target=\"_blank\">t</a></p>" := by
  refine ⟨rfl, by decide, rfl, by decide, rfl, rfl, rfl⟩

/-- Claim C7: deleting a slug no stored post has, or a message id no
stored message has, behind an authenticated admin session, leaves the
store exactly as it was and answers an ordinary redirect. -/
theorem delete_nonexistent_noop (sess : Option Session) (slug : String)
    (n : Nat) (st : Store)
    (hadmin : requireAdmin sess = true)
    (hslug : ∀ p ∈ st.posts, p.slug ≠ slug)
    (hid : ∀ m ∈ st.messages, m.id ≠ n) :
    ((postAdminPostsDelete sess (some slug) st).2 = st ∧
      isRedirect (postAdminPostsDelete sess (some slug) st).1 = true) ∧
    ((postAdminMessagesDelete sess (some n) st).2 = st ∧
      isRedirect (postAdminMessagesDelete sess (some n) st).1 = true) := by
  have h1 : st.posts.filter (fun p => !decide (p.slug = slug)) = st.posts :=
    List.filter_eq_self.mpr (by simpa using hslug)
  have h2 : st.messages.filter (fun m => !decide (m.id = n)) = st.messages :=
    List.filter_eq_self.mpr (by simpa using hid)
  by_cases hempty : slug = "" <;>
    simp [postAdminPostsDelete, postAdminMessagesDelete, hadmin, jsFalsyField,
      hempty, h1, h2, isRedirect]

/-- Claim C7, witness: deleting slug "b" and id 9 from a store holding
only slug "a" and id 1. -/
theorem delete_nonexistent_noop_witness :
    (postAdminPostsDelete (some ⟨true, "admin@example.com"⟩) (some "b")
      ⟨[⟨1, "nm", "em", "msg", 0⟩], [⟨1, "a", "t", none, none, 0⟩], 1, 1⟩).2 =
      ⟨[⟨1, "nm", "em", "msg", 0⟩], [⟨1, "a", "t", none, none, 0⟩], 1, 1⟩ :=
  (delete_nonexistent_noop (some ⟨true, "admin@example.com"⟩) "b" 9
    ⟨[⟨1, "nm", "em", "msg", 0⟩], [⟨1, "a", "t", none, none, 0⟩], 1, 1⟩
    rfl (by decide) (by decide)).1.1

/-- Claim C8: the post list used by GET / and GET /admin and the message
list used by GET /admin are permutations of the stored tables arranged
newest-first: pairwise, every later element has a created_at no larger
than any earlier one. -/
theorem list_routes_sorted_desc (st : Store) :
    List.Pairwise (fun a b : PostRow => b.created_at ≤ a.created_at)
      (listPostsDesc st) ∧
    (listPostsDesc st).Perm st.posts ∧
    List.Pairwise (fun a b : MessageRow => b.created_at ≤ a.created_at)
      (listMessagesDesc st) ∧
    (listMessagesDesc st).Perm st.messages := by
  refine ⟨?_, List.mergeSort_perm _ _, ?_, List.mergeSort_perm _ _⟩
  · have hsorted := @List.sorted_mergeSort PostRow
      (fun a b => decide (b.created_at ≤ a.created_at))
      (fun a b c hab hbc => by
        simp only [decide_eq_true_eq] at hab hbc ⊢
        exact Nat.le_trans hbc hab)
      (fun a b => by
        simp only [Bool.or_eq_true, decide_eq_true_eq]
        exact Nat.le_total _ _)
      st.posts
    exact hsorted.imp (by simp)
  · have hsorted := @List.sorted_mergeSort MessageRow
      (fun a b => decide (b.created_at ≤ a.created_at))
      (fun a b c hab hbc => by
        simp only [decide_eq_true_eq] at hab hbc ⊢
        exact Nat.le_trans hbc hab)
      (fun a b => by
        simp only [Bool.or_eq_true, decide_eq_true_eq]
        exact Nat.le_total _ _)
      st.messages
    exact hsorted.imp (by simp)

/-- Claim C9: `escapeHtml` is total — a function on every embedded JS
value, never a thrown fault — returning the empty string on every falsy
input other than the number 0 (null, undefined, empty string, false,
NaN), the string "0" on the number 0, and the escaped string form of the
value on every truthy input. -/
theorem escapeHtml_total_falsy_behavior (v : JsValue) :
    (jsFalsy v = true → v ≠ .vInt 0 → escapeHtml v = "") ∧
    escapeHtml .vNull = "" ∧ escapeHtml .vUndef = "" ∧
    escapeHtml (.vStr "") = "" ∧ escapeHtml (.vBool false) = "" ∧
    escapeHtml .vNaN = "" ∧ escapeHtml (.vInt 0) = "0" ∧
    (jsFalsy v = false → escapeHtml v = escapeHtmlStr (jsToString v)) := by
  refine ⟨?_, rfl, rfl, rfl, rfl, rfl, by decide, ?_⟩
  · intro h hne
    cases v <;> simp_all [escapeHtml, jsFalsy, jsIsNumZero, jsToString]
  · intro h
    simp [escapeHtml, h]

/-- Claim C9, witness: the falsy branch at NaN. -/
theorem escapeHtml_total_falsy_behavior_witness :
    escapeHtml .vNaN = "" :=
  (escapeHtml_total_falsy_behavior .vNaN).1 rfl (by decide)

/-- Claim C10: saving an edit of an existing post swaps in the saved
object exactly at the positions whose id matches, keeping the list
length and every other element (so also the order), and the saved object
carries the original post's createdAt; saving from a fresh modal
prepends one new post whose id is the freshly generated
`Date.now().toString()` and whose createdAt is the current ISO time. -/
theorem browser_upsert_frame (p : BrowserPost) (i : String)
    (hid : p.id = some i) (hi : i ≠ "") (t c : String) (now : Nat)
    (iso : String) (prev : List BrowserPost) :
    (postModalSave (some p) t c now iso prev).length = prev.length ∧
    (∀ j : Nat, (postModalSave (some p) t c now iso prev)[j]? =
      (prev[j]?).map (fun q => if q.id = p.id then ⟨p.id, t, c, p.createdAt⟩ else q)) ∧
    postModalSave none t c now iso prev = ⟨some (toString now), t, c, iso⟩ :: prev := by
  refine ⟨?_, ?_, ?_⟩
  · simp [postModalSave, upsertPost, jsFalsyField, hid, hi]
  · intro j
    simp [postModalSave, upsertPost, jsFalsyField, hid, hi, List.getElem?_map]
  · simp [postModalSave, upsertPost, jsFalsyField]

/-- Claim C10, witness: editing the single stored post. -/
theorem browser_upsert_frame_witness :
    (postModalSave (some ⟨some "1", "T", "C", "d0"⟩) "T2" "C2" 99 "d9"
      [⟨some "1", "T", "C", "d0"⟩]).length =
      ([⟨some "1", "T", "C", "d0"⟩] : List BrowserPost).length :=
  (browser_upsert_frame ⟨some "1", "T", "C", "d0"⟩ "1" rfl (by decide)
    "T2" "C2" 99 "d9" [⟨some "1", "T", "C", "d0"⟩]).1

end Traininggym
